import Mathlib

/-!
Verification of the statistical analytics subsystem of the
Impact-Investing Research Tool (`backend/analytics_services.py`).

The embedding models the numeric computations over `ℚ` (Python floats are
idealized as exact rationals), with the one genuinely real-valued operation
(`** 0.5` / square roots in `statistics.stdev` and Pearson correlation)
lifted to `ℝ` via `Real.sqrt`.  Python `int(...)` truncation of the
non-negative float index products (`len * 0.25`, `len * p / 100`,
`len * 0.05`, ...) is modelled by natural-number (floor) division; for the
index magnitudes that arise the float computation agrees with exact floor.
-/

namespace ImpactAnalytics

/-- Python `sorted` on a numeric list, modelled by insertion sort with `≤`. -/
def sortQ (l : List ℚ) : List ℚ := l.insertionSort (· ≤ ·)

/-- Model of `statistics.mean`; callers in the source guard the empty list
(on which Python raises `StatisticsError`). -/
def mean (l : List ℚ) : ℚ := l.sum / l.length

/-- Model of `statistics.median`: middle element of the sorted list for odd
length, average of the two middle elements for even length. -/
def median (l : List ℚ) : ℚ :=
  let s := sortQ l
  if s.length % 2 = 1 then s.getD (s.length / 2) 0
  else (s.getD (s.length / 2 - 1) 0 + s.getD (s.length / 2) 0) / 2

/-- Model of `calc_stats` in `PeerBenchmarkService.calculate_benchmarks`
(analytics_services.py lines 106-115): `(mean, median, p25, p75)` of a metric
vector, or `none` for the empty vector.  The Python indices
`int(len(sorted_vals) * 0.25)` and `int(len(sorted_vals) * 0.75)` are the
floor divisions `len * 25 / 100` and `len * 75 / 100`. -/
def calc_stats (values : List ℚ) : Option (ℚ × ℚ × ℚ × ℚ) :=
  if values.isEmpty then none
  else
    let sorted_vals := sortQ values
    some (mean values, median values,
      sorted_vals.getD (sorted_vals.length * 25 / 100) 0,
      sorted_vals.getD (sorted_vals.length * 75 / 100) 0)

/-- Sum of squared deviations from the mean, `sum((x[i] - mean_x) ** 2)`:
one factor under the square root in the Pearson denominator of
`calc_correlation` (lines 637-638). -/
def sqDevSum (l : List ℚ) : ℚ := (l.map (fun a => (a - mean l) ^ 2)).sum

/-- Pearson numerator `sum((x[i] - mean_x) * (y[i] - mean_y))`
(line 636); equal-length vectors are traversed pairwise. -/
def crossDevSum (x y : List ℚ) : ℚ :=
  ((x.zip y).map (fun p => (p.1 - mean x) * (p.2 - mean y))).sum

/-- Model of `calc_correlation` in
`CorrelationAnalysisService.calculate_correlations` (lines 628-641):
`None` on length mismatch, on `n < 2`, and when the denominator
`(sqDevSum x * sqDevSum y) ** 0.5` is zero; otherwise the Pearson ratio. -/
noncomputable def calc_correlation (x y : List ℚ) : Option ℝ :=
  if x.length ≠ y.length then none
  else if x.length < 2 then none
  else
    let den : ℝ := Real.sqrt ((sqDevSum x : ℝ) * (sqDevSum y : ℝ))
    if den = 0 then none
    else some ((crossDevSum x y : ℝ) / den)

/-- Percentile levels used by `calc_percentiles` in
`MonteCarloSimulationService.run_simulation` (line 786). -/
def defaultPercentiles : List Nat := [5, 10, 25, 50, 75, 90, 95]

/-- One nearest-rank percentile as computed inside `calc_percentiles`
(lines 789-791): `sorted_vals[min(int(len(sorted_vals) * p / 100), len - 1)]`. -/
def percentileOf (values : List ℚ) (p : Nat) : ℚ :=
  let sorted_vals := sortQ values
  sorted_vals.getD (min (sorted_vals.length * p / 100) (sorted_vals.length - 1)) 0

/-- Model of `calc_percentiles` (lines 786-792): the percentile table as an
association list from level to value. -/
def calc_percentiles (values : List ℚ) (ps : List Nat) : List (Nat × ℚ) :=
  ps.map (fun p => (p, percentileOf values p))

/-- Per-holding simulation inputs assembled by
`MonteCarloSimulationService.run_simulation` (lines 752-757): portfolio
weight, annualized return estimate, latest impact score, latest ESG score. -/
structure InvData where
  weight : ℚ
  annual_roi : ℚ
  impact : ℚ
  esg : ℚ

/-- Assembly of one holding's `InvData` (lines 731-757).  `annual_roi_hist`
abstracts the annualized historical ROI computed from dates and amounts when
all are present (lines 735-740); when it is absent line 742 substitutes the
default assumption `8.0`.  A missing social-impact assessment is substituted
by `5.0` and a missing ESG assessment by `50.0` (lines 755-756). -/
def mkInvData (weight : ℚ) (annual_roi_hist latest_impact latest_esg : Option ℚ) : InvData :=
  { weight := weight
    annual_roi := annual_roi_hist.getD 8
    impact := latest_impact.getD 5
    esg := latest_esg.getD 50 }

/-- One iteration's simulated portfolio return (lines 766-777): per holding
`j`, `random.gauss(0, market_volatility * 100)` is modelled as
`vol * 100 * zi j` where `zi j` is that draw's standard-normal sample; the
perturbed annualized ROI is weight-summed across holdings. -/
def iterationROI (data : List InvData) (vol : ℚ) (zi : Nat → ℚ) : ℚ :=
  (data.enum.map (fun p => (p.2.annual_roi + vol * 100 * zi p.1) * p.2.weight)).sum

/-- Weight-summed portfolio impact score, identical in every iteration
(line 776: no random term). -/
def portfolioImpact (data : List InvData) : ℚ :=
  (data.map (fun d => d.impact * d.weight)).sum

/-- Weight-summed portfolio ESG score, identical in every iteration
(line 777: no random term). -/
def portfolioEsg (data : List InvData) : ℚ :=
  (data.map (fun d => d.esg * d.weight)).sum

/-- Python `range(n)` for a possibly negative `int` argument: empty when
`n ≤ 0`. -/
def iterRange (n : ℤ) : List Nat := List.range n.toNat

/-- The accumulated `roi_results` series (lines 760-781): each iteration's
weight-summed return times the horizon (`final_roi = portfolio_roi *
time_horizon_years`, linear scaling). -/
def roiResults (data : List InvData) (vol : ℚ) (z : Nat → Nat → ℚ)
    (num_iterations time_horizon_years : ℤ) : List ℚ :=
  (iterRange num_iterations).map
    (fun i => iterationROI data vol (z i) * (time_horizon_years : ℚ))

/-- The accumulated `impact_results` series (line 782): the same
weight-summed value in every iteration. -/
def impactResults (data : List InvData) (num_iterations : ℤ) : List ℚ :=
  (iterRange num_iterations).map (fun _ => portfolioImpact data)

/-- The accumulated `esg_results` series (line 783). -/
def esgResults (data : List InvData) (num_iterations : ℤ) : List ℚ :=
  (iterRange num_iterations).map (fun _ => portfolioEsg data)

/-- Sample variance with `n - 1` denominator, as inside `statistics.stdev`;
call sites guard `len > 1` (lines 795, 799, 803). -/
def sampleVariance (l : List ℚ) : ℚ := sqDevSum l / ((l.length : ℚ) - 1)

/-- Model of `statistics.stdev`: square root of the sample variance. -/
noncomputable def stdev (l : List ℚ) : ℝ := Real.sqrt ((sampleVariance l : ℚ) : ℝ)

/-- The guarded indexing `sorted_roi[idx] if idx < len(sorted_roi) else
sorted_roi[0]` used for both VaR fields (lines 809-810). -/
def varAt (sorted_roi : List ℚ) (idx : Nat) : ℚ :=
  if idx < sorted_roi.length then sorted_roi.getD idx 0 else sorted_roi.getD 0 0

/-- The statistical fields of the persisted `MonteCarloSimulation` record
(lines 820-855); metadata fields (name, dates, notes, raw samples) carry no
computation and are omitted. -/
structure SimResult where
  expected_roi : ℚ
  roi_std_dev : ℝ
  roi_percentiles : List (Nat × ℚ)
  expected_impact_score : ℚ
  impact_score_std_dev : ℝ
  impact_score_percentiles : List (Nat × ℚ)
  expected_esg_score : ℚ
  esg_score_std_dev : ℝ
  value_at_risk_95 : ℚ
  value_at_risk_99 : ℚ
  conditional_var_95 : ℚ
  probability_positive_roi : ℚ
  probability_target_impact : ℚ
  probability_risk_threshold : ℚ

/-- The post-processing of `run_simulation` (lines 785-855) on the three
accumulated series.  `var_95_idx = int(len * 0.05)` and
`var_99_idx = int(len * 0.01)` are the floor divisions `len * 5 / 100` and
`len * 1 / 100`. -/
noncomputable def simResult (data : List InvData) (num_iterations time_horizon_years : ℤ)
    (vol : ℚ) (z : Nat → Nat → ℚ) : SimResult :=
  let roi_results := roiResults data vol z num_iterations time_horizon_years
  let impact_results := impactResults data num_iterations
  let esg_results := esgResults data num_iterations
  let sorted_roi := sortQ roi_results
  let var_95_idx := sorted_roi.length * 5 / 100
  let var_99_idx := sorted_roi.length * 1 / 100
  { expected_roi := mean roi_results
    roi_std_dev := if 1 < roi_results.length then stdev roi_results else 0
    roi_percentiles := calc_percentiles roi_results defaultPercentiles
    expected_impact_score := mean impact_results
    impact_score_std_dev := if 1 < impact_results.length then stdev impact_results else 0
    impact_score_percentiles := calc_percentiles impact_results defaultPercentiles
    expected_esg_score := mean esg_results
    esg_score_std_dev := if 1 < esg_results.length then stdev esg_results else 0
    value_at_risk_95 := varAt sorted_roi var_95_idx
    value_at_risk_99 := varAt sorted_roi var_99_idx
    conditional_var_95 :=
      if 0 < var_95_idx then mean (sorted_roi.take var_95_idx) else varAt sorted_roi var_95_idx
    probability_positive_roi :=
      ((roi_results.countP (fun r => decide (0 < r)) : ℚ) / roi_results.length) * 100
    probability_target_impact :=
      ((impact_results.countP (fun i => decide (7 ≤ i)) : ℚ) / impact_results.length) * 100
    probability_risk_threshold :=
      ((roi_results.countP (fun r => decide (r < -10)) : ℚ) / roi_results.length) * 100 }

/-- Errors raised by `run_simulation`.  `insufficientData` models
`raise ValueError("No active investments for simulation")` at lines 723-724
(named `InsufficientDataError` in the specification taxonomy);
`emptyStatistics` models the `statistics.StatisticsError` that
`statistics.mean` raises on the empty results series (line 794);
`validationError` names the ValidationError of the specification taxonomy,
which the source never raises. -/
inductive SimError where
  | insufficientData
  | emptyStatistics
  | validationError
deriving DecidableEq

/-- Model of `MonteCarloSimulationService.run_simulation` (lines 709-861):
`data` holds one `InvData` per active holding (in bijection with the
`investments` query result of line 721, so it is empty exactly when that
list is empty); the record is built and persisted only when no error is
raised, and nothing is persisted on error. -/
noncomputable def run_simulation (data : List InvData) (num_iterations time_horizon_years : ℤ)
    (vol : ℚ) (z : Nat → Nat → ℚ) : Except SimError SimResult :=
  match data with
  | [] => .error .insufficientData
  | _ :: _ =>
    match roiResults data vol z num_iterations time_horizon_years with
    | [] => .error .emptyStatistics
    | _ :: _ => .ok (simResult data num_iterations time_horizon_years vol z)

/-- One portfolio holding as seen by
`PeerBenchmarkService.calculate_benchmarks` (lines 60-103): the latest
assessment value per metric, `none` when the holding has no assessment of
that kind.  A present assessment record whose score column is NULL behaves
exactly like a missing record in the source (both fail the truthiness
test), so the two levels of optionality are flattened into one. -/
structure Holding where
  latest_esg : Option ℚ
  latest_physical_risk : Option ℚ
  latest_transition_risk : Option ℚ
  latest_impact : Option ℚ
  investment_amount : Option ℚ
  current_value : Option ℚ

/-- Python truthiness filter applied to each observation, e.g.
`if latest_esg and latest_esg.overall_esg_score:` (line 65): the value is
kept only when present and nonzero (`0.0` is falsy). -/
def truthy (v : Option ℚ) : Option ℚ :=
  match v with
  | some x => if x = 0 then none else some x
  | none => none

/-- The `esg_scores` metric vector (lines 61-66). -/
def esg_scores (hs : List Holding) : List ℚ :=
  hs.filterMap (fun h => truthy h.latest_esg)

/-- The `physical_risks` metric vector (lines 72-74). -/
def physical_risks (hs : List Holding) : List ℚ :=
  hs.filterMap (fun h => truthy h.latest_physical_risk)

/-- The `transition_risks` metric vector (lines 75-76). -/
def transition_risks (hs : List Holding) : List ℚ :=
  hs.filterMap (fun h => truthy h.latest_transition_risk)

/-- The `impact_scores` metric vector (lines 92-94). -/
def impact_scores (hs : List Holding) : List ℚ :=
  hs.filterMap (fun h => truthy h.latest_impact)

/-- The `rois` metric vector (lines 80-83): an ROI observation
`(current_value - investment_amount) / investment_amount * 100` is
collected only when both amounts are truthy. -/
def rois (hs : List Holding) : List ℚ :=
  hs.filterMap (fun h =>
    match truthy h.investment_amount, truthy h.current_value with
    | some ia, some cv => some ((cv - ia) / ia * 100)
    | _, _ => none)

/-- One holding as seen by the data-point collection loop of
`CorrelationAnalysisService.calculate_correlations` (lines 592-622).
Unlike the benchmark extraction, the risk record's existence matters here
separately from its component scores (`max_risk` is built from an existing
record with `or 0` fallbacks, but is `None` when no record exists), so the
record level is kept: `has_risk` is whether a ClimateRisk row exists and
`physical_risk` / `transition_risk` are its optional component scores. -/
structure CorrHolding where
  latest_esg : Option ℚ
  has_risk : Bool
  physical_risk : Option ℚ
  transition_risk : Option ℚ
  latest_impact : Option ℚ
  investment_amount : Option ℚ
  current_value : Option ℚ

/-- The `roi` local of lines 605-607: initialized to 0 and only overwritten
when both amounts are truthy, so a holding with missing (or zero) amounts
keeps the substituted value 0. -/
def corrROI (h : CorrHolding) : ℚ :=
  match truthy h.investment_amount, truthy h.current_value with
  | some ia, some cv => (cv - ia) / ia * 100
  | _, _ => 0

/-- The `max_risk` local of lines 610-613:
`max(physical or 0, transition or 0)` when a risk record exists (a missing
component is substituted by 0), `None` when no record exists. -/
def corrMaxRisk (h : CorrHolding) : Option ℚ :=
  if h.has_risk then some (max (h.physical_risk.getD 0) (h.transition_risk.getD 0)) else none

/-- One entry of `data_points` (lines 616-622), as
`(esg, risk, impact, roi)`: appended only when esg, max_risk and impact are
all present (the complete-case join); `roi` is always carried, substituted
0 included. -/
def corrDataPoint (h : CorrHolding) : Option (ℚ × ℚ × ℚ × ℚ) :=
  match h.latest_esg, corrMaxRisk h, h.latest_impact with
  | some esg, some risk, some impact => some (esg, risk, impact, corrROI h)
  | _, _, _ => none

/-- The `data_points` list (lines 590-622). -/
def corr_data_points (hs : List CorrHolding) : List (ℚ × ℚ × ℚ × ℚ) :=
  hs.filterMap corrDataPoint

/-- The `esg_values` vector fed to `calc_correlation` (line 643). -/
def corr_esg_values (hs : List CorrHolding) : List ℚ :=
  (corr_data_points hs).map (fun d => d.1)

/-- The `risk_values` vector (line 644). -/
def corr_risk_values (hs : List CorrHolding) : List ℚ :=
  (corr_data_points hs).map (fun d => d.2.1)

/-- The `impact_values` vector (line 645). -/
def corr_impact_values (hs : List CorrHolding) : List ℚ :=
  (corr_data_points hs).map (fun d => d.2.2.1)

/-- The `roi_values` vector (line 646). -/
def corr_roi_values (hs : List CorrHolding) : List ℚ :=
  (corr_data_points hs).map (fun d => d.2.2.2)

/-! ## Shared helper lemmas -/

theorem truthy_eq_some {o : Option ℚ} {x : ℚ} (h : truthy o = some x) :
    o = some x ∧ x ≠ 0 := by
  cases o with
  | none =>
    simp only [truthy] at h
    exact Option.noConfusion h
  | some a =>
    simp only [truthy] at h
    by_cases ha : a = 0
    · rw [if_pos ha] at h
      exact Option.noConfusion h
    · rw [if_neg ha] at h
      obtain rfl := Option.some.inj h
      exact ⟨rfl, ha⟩

theorem mem_truthy_filterMap {f : Holding → Option ℚ} {hs : List Holding} {v : ℚ}
    (hv : v ∈ hs.filterMap (fun h => truthy (f h))) :
    ∃ h ∈ hs, f h = some v ∧ v ≠ 0 := by
  obtain ⟨h, hmem, hf⟩ := List.mem_filterMap.mp hv
  exact ⟨h, hmem, truthy_eq_some hf⟩

theorem corrDataPoint_shape {h : CorrHolding} {d : ℚ × ℚ × ℚ × ℚ}
    (hd : corrDataPoint h = some d) :
    h.latest_esg = some d.1 ∧ corrMaxRisk h = some d.2.1 ∧
    h.latest_impact = some d.2.2.1 ∧ d.2.2.2 = corrROI h := by
  unfold corrDataPoint at hd
  split at hd
  · rename_i esg risk impact he hr hi
    obtain rfl := Option.some.inj hd
    exact ⟨he, hr, hi, rfl⟩
  · exact Option.noConfusion hd

theorem sortQ_length (l : List ℚ) : (sortQ l).length = l.length :=
  List.length_insertionSort _ l

theorem sortQ_mem {l : List ℚ} {x : ℚ} : x ∈ sortQ l ↔ x ∈ l :=
  List.mem_insertionSort _

theorem sortQ_sorted (l : List ℚ) : (sortQ l).Sorted (· ≤ ·) :=
  List.sorted_insertionSort _ l

theorem mean_of_constant {l : List ℚ} {c : ℚ} (hne : l ≠ [])
    (h : ∀ x ∈ l, x = c) : mean l = c := by
  have hrep : l = List.replicate l.length c := List.eq_replicate_iff.mpr ⟨rfl, h⟩
  have hlen : (l.length : ℚ) ≠ 0 := by
    exact_mod_cast fun h0 => hne (List.length_eq_zero.mp (by exact_mod_cast h0))
  rw [mean, hrep]
  simp only [List.sum_replicate, List.length_replicate, nsmul_eq_mul]
  field_simp

theorem sqDevSum_of_constant {l : List ℚ} {c : ℚ} (hne : l ≠ [])
    (h : ∀ x ∈ l, x = c) : sqDevSum l = 0 := by
  rw [sqDevSum]
  apply List.sum_eq_zero
  intro y hy
  obtain ⟨x, hx, rfl⟩ := List.mem_map.mp hy
  rw [h x hx, mean_of_constant hne h]
  ring

theorem sampleVariance_of_constant {l : List ℚ} {c : ℚ} (hne : l ≠ [])
    (h : ∀ x ∈ l, x = c) : sampleVariance l = 0 := by
  rw [sampleVariance, sqDevSum_of_constant hne h, zero_div]

theorem stdev_of_constant {l : List ℚ} {c : ℚ} (hne : l ≠ [])
    (h : ∀ x ∈ l, x = c) : stdev l = 0 := by
  rw [stdev, sampleVariance_of_constant hne h]
  simp

theorem getD_of_constant {l : List ℚ} {c : ℚ} {i : Nat}
    (h : ∀ x ∈ l, x = c) (hi : i < l.length) : l.getD i 0 = c := by
  rw [List.getD_eq_getElem l 0 hi]
  exact h _ (List.getElem_mem hi)

theorem percentileOf_of_constant {l : List ℚ} {c : ℚ} (p : Nat) (hne : l ≠ [])
    (h : ∀ x ∈ l, x = c) : percentileOf l p = c := by
  have hlen : 0 < l.length := List.length_pos.mpr hne
  have hslen : (sortQ l).length = l.length := sortQ_length l
  have hidx : min ((sortQ l).length * p / 100) ((sortQ l).length - 1) < (sortQ l).length := by
    have : (sortQ l).length - 1 < (sortQ l).length := by omega
    omega
  have hall : ∀ x ∈ sortQ l, x = c := fun x hx => h x (sortQ_mem.mp hx)
  exact getD_of_constant hall hidx

theorem zip_self_eq_map {α : Type} (x : List α) : x.zip x = x.map (fun a => (a, a)) := by
  induction x with
  | nil => rfl
  | cons a t ih => simp [List.zip_cons_cons, ih]

/-! ## Claims -/

/-- Claim C2: percentile-k is the element of the sorted vector at index
floor(n*k/100) clamped to [0, n-1] (nearest-rank, no interpolation); on the
vector [40, 60, 80] the statistics engine returns mean 60, median 60,
p25 = 40 and p75 = 80; and for every odd-length vector percentile-50 equals
the median. -/
theorem C2_descriptive_statistics :
    calc_stats [40, 60, 80] = some (60, 60, 40, 80) ∧
    (∀ (v : List ℚ) (k : Nat),
      percentileOf v k = (sortQ v).getD (min (v.length * k / 100) (v.length - 1)) 0) ∧
    (∀ v : List ℚ, v ≠ [] →
      calc_stats v = some (mean v, median v, percentileOf v 25, percentileOf v 75)) ∧
    (∀ v : List ℚ, v.length % 2 = 1 → percentileOf v 50 = median v) := by
  refine ⟨by norm_num [calc_stats, mean, median, sortQ, List.insertionSort, List.orderedInsert],
    ?_, ?_, ?_⟩
  · intro v k
    simp only [percentileOf, sortQ_length]
  · intro v hne
    have hl : (sortQ v).length = v.length := sortQ_length v
    have hpos : 0 < v.length := List.length_pos.mpr hne
    have hemp : ¬(v.isEmpty = true) := by
      cases v with
      | nil => exact absurd rfl hne
      | cons a t => simp
    rw [calc_stats, if_neg hemp]
    simp only [percentileOf]
    rw [(by omega : min ((sortQ v).length * 25 / 100) ((sortQ v).length - 1) =
        (sortQ v).length * 25 / 100),
      (by omega : min ((sortQ v).length * 75 / 100) ((sortQ v).length - 1) =
        (sortQ v).length * 75 / 100)]
  · intro v hodd
    have hl : (sortQ v).length = v.length := sortQ_length v
    simp only [percentileOf, median]
    rw [if_pos (by omega : (sortQ v).length % 2 = 1)]
    congr 1
    omega

theorem C2_witness : percentileOf [1, 2, 3] 50 = median [1, 2, 3] :=
  C2_descriptive_statistics.2.2.2 [1, 2, 3] (by decide)

/-- Claim C3: running the Monte Carlo simulator over an empty set of active
holdings raises the insufficient-data error (the ValueError of lines
723-724, named InsufficientDataError in the specification taxonomy), and no
SimulationResult is produced or persisted. -/
theorem C3_empty_portfolio_insufficient_data (N H : ℤ) (vol : ℚ) (z : Nat → Nat → ℚ) :
    run_simulation [] N H vol z = .error .insufficientData ∧
    ∀ r : SimResult, run_simulation [] N H vol z ≠ .ok r := by
  exact ⟨rfl, fun r h => Except.noConfusion h⟩

theorem C3_witness :
    run_simulation [] 10000 5 (3 / 20) (fun _ _ => 0) = .error .insufficientData :=
  (C3_empty_portfolio_insufficient_data 10000 5 (3 / 20) (fun _ _ => 0)).1

/-- Claim C4: the correlation engine returns undefined (none, not zero)
whenever n < 2 or either sum of squared deviations is zero; in particular
correlating any vector with an equal-length constant vector is undefined. -/
theorem C4_correlation_undefined_cases :
    (∀ x y : List ℚ, x.length = y.length →
      (x.length < 2 ∨ sqDevSum x = 0 ∨ sqDevSum y = 0) → calc_correlation x y = none) ∧
    ∀ (x : List ℚ) (c : ℚ), calc_correlation x (List.replicate x.length c) = none := by
  have main : ∀ x y : List ℚ, x.length = y.length →
      (x.length < 2 ∨ sqDevSum x = 0 ∨ sqDevSum y = 0) → calc_correlation x y = none := by
    intro x y hlen hcase
    simp only [calc_correlation]
    rw [if_neg (fun hne => hne hlen)]
    by_cases h2 : x.length < 2
    · rw [if_pos h2]
    · rw [if_neg h2]
      have hden : Real.sqrt ((sqDevSum x : ℝ) * (sqDevSum y : ℝ)) = 0 := by
        rcases hcase with hc | hc | hc
        · exact absurd hc h2
        · rw [hc]; simp
        · rw [hc]; simp
      rw [if_pos hden]
  refine ⟨main, fun x c => ?_⟩
  by_cases h2 : x.length < 2
  · exact main x _ (by simp) (Or.inl h2)
  · have hne : List.replicate x.length c ≠ [] := by
      simp only [ne_eq, List.replicate_eq_nil_iff]
      omega
    have hconst : ∀ b ∈ List.replicate x.length c, b = c :=
      fun b hb => List.eq_of_mem_replicate hb
    exact main x _ (by simp) (Or.inr (Or.inr (sqDevSum_of_constant hne hconst)))

theorem C4_witness : calc_correlation [1, 2] [5, 5] = none :=
  C4_correlation_undefined_cases.1 [1, 2] [5, 5] (by decide)
    (Or.inr (Or.inr (by norm_num [sqDevSum, mean])))

/-- Claim C6: the correlation engine on x = [1,2,3], y = [2,4,6] returns
exactly 1, and correlating any vector with itself returns 1 whenever its
sum of squared deviations is positive. -/
theorem C6_perfect_correlation :
    calc_correlation [1, 2, 3] [2, 4, 6] = some 1 ∧
    ∀ x : List ℚ, 2 ≤ x.length → 0 < sqDevSum x → calc_correlation x x = some 1 := by
  constructor
  · have h1 : sqDevSum [1, 2, 3] = 2 := by norm_num [sqDevSum, mean]
    have h2 : sqDevSum [2, 4, 6] = 8 := by norm_num [sqDevSum, mean]
    have h3 : crossDevSum [1, 2, 3] [2, 4, 6] = 4 := by
      norm_num [crossDevSum, mean, List.zip_cons_cons]
    have hden : Real.sqrt ((sqDevSum [1, 2, 3] : ℝ) * (sqDevSum [2, 4, 6] : ℝ)) = 4 := by
      rw [h1, h2]
      push_cast
      rw [show (2 : ℝ) * 8 = 4 ^ 2 by norm_num, Real.sqrt_sq (by norm_num : (0 : ℝ) ≤ 4)]
    simp only [calc_correlation]
    rw [if_neg (by norm_num), if_neg (by norm_num), if_neg (by rw [hden]; norm_num), h3, hden]
    norm_num
  · intro x hlen hvar
    have hcross : crossDevSum x x = sqDevSum x := by
      rw [crossDevSum, sqDevSum, zip_self_eq_map, List.map_map]
      apply congrArg
      apply List.map_congr_left
      intro a _
      simp only [Function.comp]
      ring
    have hpos : (0 : ℝ) < (sqDevSum x : ℝ) := by exact_mod_cast hvar
    have hden : Real.sqrt ((sqDevSum x : ℝ) * (sqDevSum x : ℝ)) = (sqDevSum x : ℝ) :=
      Real.sqrt_mul_self (le_of_lt hpos)
    simp only [calc_correlation]
    rw [if_neg (by norm_num), if_neg (not_lt.mpr hlen), if_neg (by rw [hden]; exact ne_of_gt hpos),
      hcross, hden]
    rw [div_self (ne_of_gt hpos)]

theorem C6_witness : calc_correlation [1, 2, 3] [1, 2, 3] = some 1 :=
  C6_perfect_correlation.2 [1, 2, 3] (by norm_num) (by norm_num [sqDevSum, mean])

/-- Claim C10: benchmark metric extraction tests observations for
truthiness, not presence, so a holding whose latest value is exactly 0
(ESG 0, risk 0, impact 0, or ROI with current value 0 or investment amount
0) contributes no observation to that metric vector, exactly as if the
observation were missing; vectors concatenate across holdings, so the
exclusion carries to any portfolio position. -/
theorem C10_truthiness_excludes_zero (h : Holding) :
    (h.latest_esg = some 0 →
      esg_scores [h] = [] ∧ esg_scores [h] = esg_scores [{ h with latest_esg := none }]) ∧
    (h.latest_physical_risk = some 0 → physical_risks [h] = []) ∧
    (h.latest_transition_risk = some 0 → transition_risks [h] = []) ∧
    (h.latest_impact = some 0 →
      impact_scores [h] = [] ∧ impact_scores [h] = impact_scores [{ h with latest_impact := none }]) ∧
    (h.current_value = some 0 → rois [h] = []) ∧
    (h.investment_amount = some 0 → rois [h] = []) ∧
    (∀ hs hs2 : List Holding, esg_scores (hs ++ hs2) = esg_scores hs ++ esg_scores hs2) ∧
    (∀ hs hs2 : List Holding, impact_scores (hs ++ hs2) = impact_scores hs ++ impact_scores hs2) ∧
    (∀ hs hs2 : List Holding, rois (hs ++ hs2) = rois hs ++ rois hs2) := by
  refine ⟨fun he => ?_, fun hp => ?_, fun ht => ?_, fun hi => ?_, fun hcv => ?_, fun hia => ?_,
    fun hs hs2 => List.filterMap_append .., fun hs hs2 => List.filterMap_append ..,
    fun hs hs2 => List.filterMap_append ..⟩
  · constructor <;> simp [esg_scores, truthy, he]
  · simp [physical_risks, truthy, hp]
  · simp [transition_risks, truthy, ht]
  · constructor <;> simp [impact_scores, truthy, hi]
  · cases hia2 : h.investment_amount <;> simp [rois, truthy, hcv, hia2]
  · cases hcv2 : h.current_value <;> simp [rois, truthy, hia, hcv2]

theorem C10_witness :
    esg_scores [Holding.mk (some 0) (some 0) (some 0) (some 0) (some 0) (some 0)] = [] ∧
    physical_risks [Holding.mk (some 0) (some 0) (some 0) (some 0) (some 0) (some 0)] = [] ∧
    impact_scores [Holding.mk (some 0) (some 0) (some 0) (some 0) (some 0) (some 0)] = [] ∧
    rois [Holding.mk (some 0) (some 0) (some 0) (some 0) (some 0) (some 0)] = [] :=
  ⟨((C10_truthiness_excludes_zero _).1 rfl).1,
    (C10_truthiness_excludes_zero _).2.1 rfl,
    ((C10_truthiness_excludes_zero _).2.2.2.1 rfl).1,
    (C10_truthiness_excludes_zero _).2.2.2.2.1 rfl⟩

theorem iterationROI_single (w R imp esg vol : ℚ) (zi : Nat → ℚ) :
    iterationROI [⟨w, R, imp, esg⟩] vol zi = (R + vol * 100 * zi 0) * w := by
  simp [iterationROI, List.enum, List.enumFrom]

theorem roiResults_length (data : List InvData) (vol : ℚ) (z : Nat → Nat → ℚ) (N H : ℤ) :
    (roiResults data vol z N H).length = N.toNat := by
  simp [roiResults, iterRange]

theorem roiResults_single_zero_vol (R imp esg : ℚ) (z : Nat → Nat → ℚ) (N H : ℤ) :
    ∀ x ∈ roiResults [⟨1, R, imp, esg⟩] 0 z N H, x = R * (H : ℚ) := by
  intro x hx
  simp only [roiResults, List.mem_map] at hx
  obtain ⟨i, _, rfl⟩ := hx
  rw [iterationROI_single]
  ring

theorem run_simulation_ok_iff (data : List InvData) (N H : ℤ) (vol : ℚ)
    (z : Nat → Nat → ℚ) (r : SimResult) :
    run_simulation data N H vol z = .ok r ↔
      data ≠ [] ∧ roiResults data vol z N H ≠ [] ∧ r = simResult data N H vol z := by
  cases data with
  | nil => simp [run_simulation]
  | cons d ds =>
    cases hE : roiResults (d :: ds) vol z N H with
    | nil => simp [run_simulation, hE]
    | cons a t => simp [run_simulation, hE, eq_comm]

/-- Claim C1: in a Monte Carlo run with zero market volatility over a single
active holding of weight 1 and annualized return estimate R, horizon H and
at least 2 iterations, every iteration's accumulated final return equals
R*H, the run succeeds, the persisted roi_std_dev is 0, and every entry of
the roi percentile table equals R*H exactly. -/
theorem C1_zero_volatility_exact (R imp esg : ℚ) (H N : ℤ) (z : Nat → Nat → ℚ)
    (hN : 2 ≤ N) :
    (∀ x ∈ roiResults [⟨1, R, imp, esg⟩] 0 z N H, x = R * (H : ℚ)) ∧
    run_simulation [⟨1, R, imp, esg⟩] N H 0 z = .ok (simResult [⟨1, R, imp, esg⟩] N H 0 z) ∧
    (simResult [⟨1, R, imp, esg⟩] N H 0 z).roi_std_dev = 0 ∧
    ∀ pr ∈ (simResult [⟨1, R, imp, esg⟩] N H 0 z).roi_percentiles, pr.2 = R * (H : ℚ) := by
  have hconst := roiResults_single_zero_vol R imp esg z N H
  have hlen := roiResults_length [⟨1, R, imp, esg⟩] 0 z N H
  have hN2 : 2 ≤ N.toNat := by omega
  have hne : roiResults [⟨1, R, imp, esg⟩] 0 z N H ≠ [] := by
    intro h0
    rw [h0] at hlen
    simp at hlen
    omega
  refine ⟨hconst, ?_, ?_, ?_⟩
  · exact (run_simulation_ok_iff ..).mpr ⟨by simp, hne, rfl⟩
  · simp only [simResult]
    rw [if_pos (by omega : 1 < (roiResults [⟨1, R, imp, esg⟩] 0 z N H).length)]
    exact stdev_of_constant hne hconst
  · intro pr hpr
    simp only [simResult, calc_percentiles, List.mem_map] at hpr
    obtain ⟨p, hp, rfl⟩ := hpr
    exact percentileOf_of_constant p hne hconst

theorem C1_witness :
    (∀ x ∈ roiResults [⟨1, 8, 5, 50⟩] 0 (fun _ _ => 7) 2 5, x = 8 * ((5 : ℤ) : ℚ)) ∧
    run_simulation [⟨1, 8, 5, 50⟩] 2 5 0 (fun _ _ => 7) =
      .ok (simResult [⟨1, 8, 5, 50⟩] 2 5 0 (fun _ _ => 7)) ∧
    (simResult [⟨1, 8, 5, 50⟩] 2 5 0 (fun _ _ => 7)).roi_std_dev = 0 ∧
    ∀ pr ∈ (simResult [⟨1, 8, 5, 50⟩] 2 5 0 (fun _ _ => 7)).roi_percentiles,
      pr.2 = 8 * ((5 : ℤ) : ℚ) :=
  C1_zero_volatility_exact 8 5 50 5 2 (fun _ _ => 7) (by norm_num)

/-- Claim C9: the per-iteration portfolio impact and ESG values are pure
weight-sums with no random perturbation, identical across iterations; hence
in every completed run impact_score_std_dev and esg_score_std_dev are 0 and
every impact percentile equals the single weight-summed impact value. -/
theorem C9_deterministic_impact_esg (data : List InvData) (N H : ℤ) (vol : ℚ)
    (z : Nat → Nat → ℚ) (r : SimResult)
    (hok : run_simulation data N H vol z = .ok r) :
    (∀ x ∈ impactResults data N, x = portfolioImpact data) ∧
    (∀ x ∈ esgResults data N, x = portfolioEsg data) ∧
    r.impact_score_std_dev = 0 ∧ r.esg_score_std_dev = 0 ∧
    ∀ pr ∈ r.impact_score_percentiles, pr.2 = portfolioImpact data := by
  obtain ⟨hdata, hroine, rfl⟩ := (run_simulation_ok_iff ..).mp hok
  have himp : ∀ x ∈ impactResults data N, x = portfolioImpact data := by
    intro x hx
    simp only [impactResults, List.mem_map] at hx
    obtain ⟨i, _, rfl⟩ := hx
    rfl
  have hesg : ∀ x ∈ esgResults data N, x = portfolioEsg data := by
    intro x hx
    simp only [esgResults, List.mem_map] at hx
    obtain ⟨i, _, rfl⟩ := hx
    rfl
  have hNpos : N.toNat ≠ 0 := by
    intro h0
    apply hroine
    apply List.length_eq_zero.mp
    rw [roiResults_length, h0]
  have hilen : (impactResults data N).length = N.toNat := by
    simp [impactResults, iterRange]
  have helen : (esgResults data N).length = N.toNat := by
    simp [esgResults, iterRange]
  have hine : impactResults data N ≠ [] := by
    intro h0
    rw [h0] at hilen
    simp at hilen
    omega
  refine ⟨himp, hesg, ?_, ?_, ?_⟩
  · simp only [simResult]
    by_cases h1 : 1 < (impactResults data N).length
    · rw [if_pos h1]
      exact stdev_of_constant hine himp
    · rw [if_neg h1]
  · simp only [simResult]
    by_cases h1 : 1 < (esgResults data N).length
    · rw [if_pos h1]
      have hene : esgResults data N ≠ [] := by
        intro h0
        rw [h0] at h1
        simp at h1
      exact stdev_of_constant hene hesg
    · rw [if_neg h1]
  · intro pr hpr
    simp only [simResult, calc_percentiles, List.mem_map] at hpr
    obtain ⟨p, hp, rfl⟩ := hpr
    exact percentileOf_of_constant p hine himp

theorem C9_witness :
    (∀ x ∈ impactResults [⟨1, 8, 5, 50⟩] 2, x = portfolioImpact [⟨1, 8, 5, 50⟩]) ∧
    (∀ x ∈ esgResults [⟨1, 8, 5, 50⟩] 2, x = portfolioEsg [⟨1, 8, 5, 50⟩]) ∧
    (simResult [⟨1, 8, 5, 50⟩] 2 5 1 (fun i _ => (i : ℚ))).impact_score_std_dev = 0 ∧
    (simResult [⟨1, 8, 5, 50⟩] 2 5 1 (fun i _ => (i : ℚ))).esg_score_std_dev = 0 ∧
    ∀ pr ∈ (simResult [⟨1, 8, 5, 50⟩] 2 5 1 (fun i _ => (i : ℚ))).impact_score_percentiles,
      pr.2 = portfolioImpact [⟨1, 8, 5, 50⟩] :=
  C9_deterministic_impact_esg [⟨1, 8, 5, 50⟩] 2 5 1 (fun i _ => (i : ℚ)) _ rfl

/-- Claim C5: in every completed simulation, value_at_risk_99 (the sorted
return series at index floor(n*0.01)) is less than or equal to
value_at_risk_95 (index floor(n*0.05)). -/
theorem C5_var99_le_var95 (data : List InvData) (N H : ℤ) (vol : ℚ)
    (z : Nat → Nat → ℚ) (r : SimResult)
    (hok : run_simulation data N H vol z = .ok r) :
    r.value_at_risk_99 ≤ r.value_at_risk_95 := by
  obtain ⟨-, hne, rfl⟩ := (run_simulation_ok_iff ..).mp hok
  simp only [simResult]
  have hslen : 0 < (sortQ (roiResults data vol z N H)).length := by
    rw [sortQ_length]
    exact List.length_pos.mpr hne
  set s := sortQ (roiResults data vol z N H) with hs
  have h95 : s.length * 5 / 100 < s.length := by omega
  have h99 : s.length * 1 / 100 ≤ s.length * 5 / 100 := by omega
  have h99lt : s.length * 1 / 100 < s.length := lt_of_le_of_lt h99 h95
  rw [varAt, varAt, if_pos h99lt, if_pos h95,
    List.getD_eq_getElem _ _ h99lt, List.getD_eq_getElem _ _ h95]
  have hsorted : s.Sorted (· ≤ ·) := sortQ_sorted _
  have hrel := hsorted.rel_get_of_le
    (Fin.mk_le_mk.mpr h99 : (⟨s.length * 1 / 100, h99lt⟩ : Fin s.length) ≤ ⟨s.length * 5 / 100, h95⟩)
  simpa using hrel

theorem C5_witness :
    (simResult [⟨1, 8, 5, 50⟩] 3 5 1 (fun i _ => (i : ℚ))).value_at_risk_99 ≤
      (simResult [⟨1, 8, 5, 50⟩] 3 5 1 (fun i _ => (i : ℚ))).value_at_risk_95 :=
  C5_var99_le_var95 [⟨1, 8, 5, 50⟩] 3 5 1 (fun i _ => (i : ℚ)) _ rfl

/-- Claim C7 counterexample: holdings with missing assessments are not
excluded from the persisted aggregates of the two cited extractions.  Monte
Carlo: a holding with no assessments at all gets the substituted defaults
8.0 (annual ROI, line 742), 5.0 (impact) and 50.0 (ESG, lines 755-756), and
the persisted expected impact score is the substituted 5.  Correlation: a
holding with ESG 60 and impact 7 but no investment amounts and a risk
record with both component scores missing contributes the substituted
observations risk = 0 (lines 611-612) and roi = 0 (line 605) to the
persisted correlation input vectors. -/
theorem C7_counterexample :
    (mkInvData 1 none none none).annual_roi = 8 ∧
    (mkInvData 1 none none none).impact = 5 ∧
    (mkInvData 1 none none none).esg = 50 ∧
    run_simulation [mkInvData 1 none none none] 2 5 0 (fun _ _ => 0) =
      .ok (simResult [mkInvData 1 none none none] 2 5 0 (fun _ _ => 0)) ∧
    (simResult [mkInvData 1 none none none] 2 5 0 (fun _ _ => 0)).expected_impact_score = 5 ∧
    corr_data_points [CorrHolding.mk (some 60) true none none (some 7) none none] =
      [(60, 0, 7, 0)] ∧
    corr_risk_values [CorrHolding.mk (some 60) true none none (some 7) none none] = [0] ∧
    corr_roi_values [CorrHolding.mk (some 60) true none none (some 7) none none] = [0] := by
  refine ⟨rfl, rfl, rfl, rfl, ?_, ?_, ?_, ?_⟩
  · simp only [simResult]
    norm_num [impactResults, iterRange, portfolioImpact, mean, mkInvData, List.range_succ]
  · simp [corr_data_points, corrDataPoint, corrMaxRisk, corrROI, truthy]
  · simp [corr_risk_values, corr_data_points, corrDataPoint, corrMaxRisk, corrROI, truthy]
  · simp [corr_roi_values, corr_data_points, corrDataPoint, corrMaxRisk, corrROI, truthy]

/-- Claim C7 as amended: the peer-benchmark metric vectors (ESG, physical
risk, transition risk, impact, ROI) contain only observations actually
present (and nonzero) on a holding, and a holding with a missing assessment
contributes no observation to them.  The other two cited extractions
substitute defaults instead: the Monte Carlo per-holding inputs use 8.0
(annual ROI), 5.0 (impact) and 50.0 (ESG) when data is missing, and the
correlation extraction carries a substituted roi of 0 whenever the amounts
are not both truthy and a substituted 0 for each missing component of an
existing risk record, excluding a holding only when its ESG, risk record,
or impact is missing entirely (the complete-case join). -/
theorem C7_amended_observation_handling :
    (∀ (hs : List Holding) (v : ℚ), v ∈ esg_scores hs →
      ∃ h ∈ hs, h.latest_esg = some v ∧ v ≠ 0) ∧
    (∀ (hs : List Holding) (v : ℚ), v ∈ physical_risks hs →
      ∃ h ∈ hs, h.latest_physical_risk = some v ∧ v ≠ 0) ∧
    (∀ (hs : List Holding) (v : ℚ), v ∈ transition_risks hs →
      ∃ h ∈ hs, h.latest_transition_risk = some v ∧ v ≠ 0) ∧
    (∀ (hs : List Holding) (v : ℚ), v ∈ impact_scores hs →
      ∃ h ∈ hs, h.latest_impact = some v ∧ v ≠ 0) ∧
    (∀ (hs : List Holding) (v : ℚ), v ∈ rois hs → ∃ h ∈ hs, ∃ ia cv : ℚ,
      h.investment_amount = some ia ∧ h.current_value = some cv ∧ ia ≠ 0 ∧ cv ≠ 0 ∧
      v = (cv - ia) / ia * 100) ∧
    (∀ h : Holding, h.latest_esg = none →
      ∀ pre post, esg_scores (pre ++ h :: post) = esg_scores (pre ++ post)) ∧
    (∀ h : Holding, h.latest_physical_risk = none →
      ∀ pre post, physical_risks (pre ++ h :: post) = physical_risks (pre ++ post)) ∧
    (∀ h : Holding, h.latest_transition_risk = none →
      ∀ pre post, transition_risks (pre ++ h :: post) = transition_risks (pre ++ post)) ∧
    (∀ h : Holding, h.latest_impact = none →
      ∀ pre post, impact_scores (pre ++ h :: post) = impact_scores (pre ++ post)) ∧
    (∀ h : Holding, h.investment_amount = none →
      ∀ pre post, rois (pre ++ h :: post) = rois (pre ++ post)) ∧
    (∀ h : Holding, h.current_value = none →
      ∀ pre post, rois (pre ++ h :: post) = rois (pre ++ post)) ∧
    (∀ w : ℚ, mkInvData w none none none = ⟨w, 8, 5, 50⟩) ∧
    (∀ h : CorrHolding, truthy h.investment_amount = none ∨ truthy h.current_value = none →
      corrROI h = 0 ∧ ∀ d : ℚ × ℚ × ℚ × ℚ, corrDataPoint h = some d → d.2.2.2 = 0) ∧
    (∀ h : CorrHolding, h.has_risk = true → h.physical_risk = none → h.transition_risk = none →
      corrMaxRisk h = some 0 ∧ ∀ d : ℚ × ℚ × ℚ × ℚ, corrDataPoint h = some d → d.2.1 = 0) ∧
    (∀ h : CorrHolding, h.latest_esg = none ∨ h.has_risk = false ∨ h.latest_impact = none →
      corrDataPoint h = none) := by
  have hroiz : ∀ h : CorrHolding,
      truthy h.investment_amount = none ∨ truthy h.current_value = none → corrROI h = 0 := by
    intro h hc
    rcases hc with hia | hcv
    · cases h2 : truthy h.current_value <;> simp [corrROI, hia, h2]
    · cases h2 : truthy h.investment_amount <;> simp [corrROI, hcv, h2]
  refine ⟨fun hs v hv => mem_truthy_filterMap hv, fun hs v hv => mem_truthy_filterMap hv,
    fun hs v hv => mem_truthy_filterMap hv, fun hs v hv => mem_truthy_filterMap hv,
    ?_, ?_, ?_, ?_, ?_, ?_, ?_, fun w => rfl, ?_, ?_, ?_⟩
  · intro hs v hv
    obtain ⟨h, hmem, hf⟩ := List.mem_filterMap.mp hv
    refine ⟨h, hmem, ?_⟩
    cases htia : truthy h.investment_amount with
    | none =>
      rw [htia] at hf
      exact Option.noConfusion hf
    | some ia =>
      cases htcv : truthy h.current_value with
      | none =>
        rw [htia, htcv] at hf
        exact Option.noConfusion hf
      | some cv =>
        rw [htia, htcv] at hf
        obtain ⟨hia, hianz⟩ := truthy_eq_some htia
        obtain ⟨hcv, hcvnz⟩ := truthy_eq_some htcv
        exact ⟨ia, cv, hia, hcv, hianz, hcvnz, (Option.some.inj hf).symm⟩
  · intro h he pre post
    simp [esg_scores, List.filterMap_append, List.filterMap_cons, truthy, he]
  · intro h hp pre post
    simp [physical_risks, List.filterMap_append, List.filterMap_cons, truthy, hp]
  · intro h ht pre post
    simp [transition_risks, List.filterMap_append, List.filterMap_cons, truthy, ht]
  · intro h hi pre post
    simp [impact_scores, List.filterMap_append, List.filterMap_cons, truthy, hi]
  · intro h hia pre post
    simp [rois, List.filterMap_append, List.filterMap_cons, truthy, hia]
  · intro h hcv pre post
    have : (fun x : Holding =>
        match truthy x.investment_amount, truthy x.current_value with
        | some ia, some cv => some ((cv - ia) / ia * 100)
        | _, _ => none) h = none := by
      cases h2 : truthy h.investment_amount <;> simp [truthy, hcv, h2]
    simp [rois, List.filterMap_append, List.filterMap_cons, this]
  · intro h hc
    refine ⟨hroiz h hc, fun d hd => ?_⟩
    rw [(corrDataPoint_shape hd).2.2.2, hroiz h hc]
  · intro h hr hp ht
    have hmax : corrMaxRisk h = some 0 := by
      simp [corrMaxRisk, hr, hp, ht]
    refine ⟨hmax, fun d hd => ?_⟩
    have := (corrDataPoint_shape hd).2.1
    rw [hmax] at this
    exact (Option.some.inj this).symm
  · intro h hc
    cases hd : corrDataPoint h with
    | none => rfl
    | some d =>
      exfalso
      obtain ⟨he, hr, hi, -⟩ := corrDataPoint_shape hd
      rcases hc with hce | hcr | hci
      · rw [hce] at he
        exact Option.noConfusion he
      · rw [corrMaxRisk, hcr] at hr
        simp at hr
      · rw [hci] at hi
        exact Option.noConfusion hi

theorem C7_amended_witness :
    (∃ h ∈ [Holding.mk (some 70) none none none none none], h.latest_esg = some 70 ∧ (70 : ℚ) ≠ 0) ∧
    (∃ h ∈ [Holding.mk none (some 3) none none (some 100) (some 120)], ∃ ia cv : ℚ,
      h.investment_amount = some ia ∧ h.current_value = some cv ∧ ia ≠ 0 ∧ cv ≠ 0 ∧
      (20 : ℚ) = (cv - ia) / ia * 100) ∧
    esg_scores ([] ++ Holding.mk none none none none none none :: []) = esg_scores ([] ++ []) ∧
    rois ([] ++ Holding.mk none none none none none none :: []) = rois ([] ++ []) ∧
    corrROI (CorrHolding.mk (some 60) true none none (some 7) none none) = 0 ∧
    corrMaxRisk (CorrHolding.mk (some 60) true none none (some 7) none none) = some 0 ∧
    corrDataPoint (CorrHolding.mk none false none none none none none) = none :=
  ⟨C7_amended_observation_handling.1 [Holding.mk (some 70) none none none none none] 70
      (by norm_num [esg_scores, truthy]),
    C7_amended_observation_handling.2.2.2.2.1 [Holding.mk none (some 3) none none (some 100) (some 120)] 20
      (by norm_num [rois, truthy]),
    C7_amended_observation_handling.2.2.2.2.2.1 (Holding.mk none none none none none none) rfl [] [],
    C7_amended_observation_handling.2.2.2.2.2.2.2.2.2.1 (Holding.mk none none none none none none) rfl [] [],
    (C7_amended_observation_handling.2.2.2.2.2.2.2.2.2.2.2.2.1
      (CorrHolding.mk (some 60) true none none (some 7) none none) (Or.inl rfl)).1,
    (C7_amended_observation_handling.2.2.2.2.2.2.2.2.2.2.2.2.2.1
      (CorrHolding.mk (some 60) true none none (some 7) none none) rfl rfl rfl).1,
    C7_amended_observation_handling.2.2.2.2.2.2.2.2.2.2.2.2.2.2
      (CorrHolding.mk none false none none none none none) (Or.inr (Or.inl rfl))⟩

/-- Claim C8 counterexample: a simulation call with a negative iteration
count is not rejected up front as a validation error; the iteration loop
simply runs zero times and the call fails only in post-processing, when
statistics.mean raises on the empty results series (line 794). -/
theorem C8_counterexample :
    run_simulation [mkInvData 1 none none none] (-5) 5 (3 / 20) (fun _ _ => 0) =
      .error .emptyStatistics ∧
    run_simulation [mkInvData 1 none none none] (-5) 5 (3 / 20) (fun _ _ => 0) ≠
      .error .validationError := by
  have h1 : run_simulation [mkInvData 1 none none none] (-5) 5 (3 / 20) (fun _ _ => 0) =
      .error .emptyStatistics := rfl
  refine ⟨h1, fun hcontra => ?_⟩
  rw [h1] at hcontra
  simp only [Except.error.injEq] at hcontra
  exact SimError.noConfusion hcontra

/-- Claim C8 as amended: a Monte Carlo call with a negative iteration count
over a nonempty portfolio performs zero iterations and fails with the
statistics error on the empty results series; nothing is persisted; it is
not rejected before computation and no validation error is raised. -/
theorem C8_negative_iterations_error (data : List InvData) (N H : ℤ) (vol : ℚ)
    (z : Nat → Nat → ℚ) (hdata : data ≠ []) (hN : N < 0) :
    run_simulation data N H vol z = .error .emptyStatistics ∧
    ∀ r : SimResult, run_simulation data N H vol z ≠ .ok r := by
  have hroi : roiResults data vol z N H = [] := by
    simp [roiResults, iterRange, Int.toNat_of_nonpos (le_of_lt hN)]
  cases data with
  | nil => exact absurd rfl hdata
  | cons d ds =>
    have h1 : run_simulation (d :: ds) N H vol z = .error .emptyStatistics := by
      simp only [run_simulation, hroi]
    refine ⟨h1, fun r hr => ?_⟩
    rw [h1] at hr
    exact Except.noConfusion hr

theorem C8_amended_witness :
    run_simulation [(⟨1, 8, 5, 50⟩ : InvData)] (-1) 5 0 (fun _ _ => 0) =
      .error .emptyStatistics ∧
    ∀ r : SimResult,
      run_simulation [(⟨1, 8, 5, 50⟩ : InvData)] (-1) 5 0 (fun _ _ => 0) ≠ .ok r :=
  C8_negative_iterations_error [(⟨1, 8, 5, 50⟩ : InvData)] (-1) 5 0 (fun _ _ => 0)
    (by simp) (by norm_num)

end ImpactAnalytics
